import Mathlib

/-!
Verification development for the multi-server tool-protocol client in
`src/bongchun_agent/client.py` (class `MultiMCPClient`).

The Python code is shallowly embedded: Python/JSON dynamic values become the
inductive type `JVal`, Python dictionaries become insertion-ordered association
lists, and the stateful methods become pure functions over an explicit
`ClientState`, with the external world (filesystem, Pillow, the Gemini chat
session, the MCP tool servers) supplied as explicit environment/script
parameters.  Exception control flow is translated into explicit outcome
values: state mutations that the source performs before a raise point are
kept, and mutations after it are dropped, exactly as in the source.
-/

set_option autoImplicit false

/-- Dynamic Python/JSON value, as manipulated by `client.py`.  `jnull` models
Python `None` (JSON `null`); `jfloat` carries an opaque textual rendering of a
Python float, which the client never computes with (floats only ever pass
through the schema cleaner's `enum` filter).  Objects are insertion-ordered
key/value lists, the observable behavior of a Python `dict` with unique keys. -/
inductive JVal where
  | jnull
  | jbool (b : Bool)
  | jint (n : Int)
  | jfloat (text : String)
  | jstr (s : String)
  | jarr (elems : List JVal)
  | jobj (fields : List (String × JVal))

mutual

/-- Structural size of a `JVal`, used as recursion fuel for the schema
cleaner: every value a schema cleaning step recurses into is strictly
smaller. -/
def jsize : JVal → Nat
  | .jnull => 1
  | .jbool _ => 1
  | .jint _ => 1
  | .jfloat _ => 1
  | .jstr _ => 1
  | .jarr elems => 1 + jsizeList elems
  | .jobj fields => 1 + jsizeFields fields

/-- Sum of the sizes of the elements of an array. -/
def jsizeList : List JVal → Nat
  | [] => 0
  | v :: rest => jsize v + jsizeList rest

/-- Sum of the sizes of the values of an object. -/
def jsizeFields : List (String × JVal) → Nat
  | [] => 0
  | (_, v) :: rest => jsize v + jsizeFields rest

end

/-- First-match association lookup; the observable behavior of Python
`dict.__getitem__` for the unique-key dictionaries the client handles. -/
def lookupField : List (String × JVal) → String → Option JVal
  | [], _ => none
  | (k, v) :: rest, key => if k = key then some v else lookupField rest key

/-- Python `key in dict` (key membership, regardless of the stored value). -/
def hasKey (fields : List (String × JVal)) (k : String) : Bool :=
  (lookupField fields k).isSome

/-- Python `dict.get(key)`: the stored value, or `None` when the key is
absent.  A stored JSON `null` and an absent key are both `jnull`, exactly as
`dict.get` returns `None` for both. -/
def pyGet (fields : List (String × JVal)) (k : String) : JVal :=
  (lookupField fields k).getD .jnull

/-- Models the Python built-in `str(...)` conversion used by the client to
coerce non-string descriptions.  Scalars are rendered as Python renders them;
container renderings are opaque stand-ins (no claim depends on the exact text
of a container rendering, only on the fact that the result is a string). -/
def pyStr : JVal → String
  | .jnull => "None"
  | .jbool true => "True"
  | .jbool false => "False"
  | .jint n => toString n
  | .jfloat t => t
  | .jstr s => s
  | .jarr _ => "[...]"
  | .jobj _ => "\x7b...\x7d"

/-- Python truthiness of a `JVal`.  The client applies it (via
`if cleaned_prop:` and `parameters=cleaned if cleaned else None`) only to
values returned by the schema cleaner, which are dictionaries; the other
cases follow Python's rules for completeness (`jfloat` is rendered opaquely,
and the client never tests a float for truthiness). -/
def truthyJ : JVal → Bool
  | .jnull => false
  | .jbool b => b
  | .jint n => n != 0
  | .jfloat _ => true
  | .jstr s => !s.isEmpty
  | .jarr l => !l.isEmpty
  | .jobj fs => !fs.isEmpty

/-- Python truthiness of an optional value (`None` is falsy). -/
def truthyOpt : Option JVal → Bool
  | none => false
  | some v => truthyJ v

/-- The allowed `type` values of `_clean_schema_for_gemini`
(`VALID_JSON_SCHEMA_TYPES` in the source). -/
def VALID_JSON_SCHEMA_TYPES : List String :=
  ["string", "number", "integer", "boolean", "array", "object"]

/-- The default type substituted by `_clean_schema_for_gemini` when `type` is
missing or invalid: `"object"` if the input has a `properties` key, else
`"string"` (source line 116). -/
def defaultTypeFor (fields : List (String × JVal)) : String :=
  if hasKey fields "properties" then "object" else "string"

/-- Step 1 of `_clean_schema_for_gemini`: the validated-or-defaulted `type`
(source lines 112-120). -/
def chooseType (fields : List (String × JVal)) : String :=
  match pyGet fields "type" with
  | .jstr t => if t ∈ VALID_JSON_SCHEMA_TYPES then t else defaultTypeFor fields
  | _ => defaultTypeFor fields

/-- Step 2 of `_clean_schema_for_gemini`: the optional `description` entry,
coercing a non-string description to a string (source lines 123-127). -/
def descriptionPart (fields : List (String × JVal)) : List (String × JVal) :=
  match pyGet fields "description" with
  | .jnull => []
  | .jstr d => [("description", .jstr d)]
  | v => [("description", .jstr (pyStr v))]

/-- The scalar filter applied to `enum` values:
`isinstance(val, (str, int, float, bool))` (source line 138). -/
def isScalarEnumVal : JVal → Bool
  | .jstr _ => true
  | .jint _ => true
  | .jfloat _ => true
  | .jbool _ => true
  | _ => false

/-- Step 3 of `_clean_schema_for_gemini`: the optional `enum` entry, kept only
when the cleaned type is string/number/integer and at least one scalar value
survives the filter (source lines 130-145). -/
def enumPart (currentType : String) (fields : List (String × JVal)) :
    List (String × JVal) :=
  match pyGet fields "enum" with
  | .jarr vs =>
    if currentType ∈ ["string", "number", "integer"] then
      let valid := vs.filter isScalarEnumVal
      if valid.isEmpty then [] else [("enum", .jarr valid)]
    else []
  | _ => []

/-- The per-property cleaning loop of step 4 (source lines 151-157): each
property schema is cleaned recursively (`rec`) and kept only when the result
is truthy. -/
def cleanProps (rec : JVal → Option JVal) :
    List (String × JVal) → List (String × JVal)
  | [] => []
  | (k, v) :: rest =>
    match rec v with
    | some cp =>
      if truthyJ cp then (k, cp) :: cleanProps rec rest else cleanProps rec rest
    | none => cleanProps rec rest

/-- The `required` filter of step 5 (source lines 163-171): keep the string
entries naming a key of the cleaned properties. -/
def isReqKept (cps : List (String × JVal)) : JVal → Bool
  | .jstr r => hasKey cps r
  | _ => false

/-- Step 5 of `_clean_schema_for_gemini`: the optional `required` entry,
processed only when a `properties` entry was produced (source lines 161-171). -/
def requiredPart (cps : List (String × JVal)) (fields : List (String × JVal)) :
    List (String × JVal) :=
  match pyGet fields "required" with
  | .jarr reqs =>
    let validReq := reqs.filter (isReqKept cps)
    if validReq.isEmpty then [] else [("required", .jarr validReq)]
  | _ => []

/-- Steps 4-5 of `_clean_schema_for_gemini` for `type == "object"` (source
lines 148-171): clean the properties, keep them if non-empty, and then filter
`required` against the kept properties. -/
def objectPart (rec : JVal → Option JVal) (fields : List (String × JVal)) :
    List (String × JVal) :=
  match pyGet fields "properties" with
  | .jobj props =>
    let cps := cleanProps rec props
    if cps.isEmpty then [] else ("properties", .jobj cps) :: requiredPart cps fields
  | _ => []

/-- Step 6 of `_clean_schema_for_gemini` for `type == "array"` (source lines
174-184): clean `items` and keep it when truthy. -/
def itemsPart (rec : JVal → Option JVal) (fields : List (String × JVal)) :
    List (String × JVal) :=
  match rec (pyGet fields "items") with
  | some ci => if truthyJ ci then [("items", ci)] else []
  | none => []

/-- The cleaned-schema dictionary built by `_clean_schema_for_gemini` for a
dictionary input, in the source's key insertion order: `type`, then
`description`, `enum`, and the object/array specific entries. -/
def buildCleaned (rec : JVal → Option JVal) (fields : List (String × JVal)) :
    List (String × JVal) :=
  let ty := chooseType fields
  ("type", .jstr ty) ::
    (descriptionPart fields ++ enumPart ty fields ++
      (if ty = "object" then objectPart rec fields
       else if ty = "array" then itemsPart rec fields
       else []))

/-- Fuel-indexed embedding of `_clean_schema_for_gemini` (source lines
86-186).  The fuel only bounds the recursion depth; `clean` below supplies a
sufficient amount, and `cleanF_eq_clean` proves the result independent of any
sufficient fuel.  A non-dictionary input yields `none` (the source returns
`None`, source lines 90-99); a dictionary input yields the built dictionary,
which is returned as `None` only if empty (source line 186). -/
def cleanF : Nat → JVal → Option JVal
  | 0, _ => none
  | n + 1, schema =>
    match schema with
    | .jobj fields =>
      let cleaned := buildCleaned (cleanF n) fields
      if cleaned.isEmpty then none else some (.jobj cleaned)
    | _ => none

/-- The schema cleaner `_clean_schema_for_gemini(schema, tool_name)`.  The
`tool_name` and `path` parameters of the source only affect log messages and
are omitted.  `jsize schema` always exceeds the recursion depth. -/
def clean (schema : JVal) : Option JVal :=
  cleanF (jsize schema) schema

/-- Modelled on the words of claim C5 (refinement comparison only, not a
translation of the source): the expected `type` of the cleaned schema — the
input's `type` when that is a string in the allowed set, otherwise `object`
when the input has a `properties` key and `string` when it does not. -/
def specExpectedType (fields : List (String × JVal)) : String :=
  match lookupField fields "type" with
  | some (.jstr t) =>
    if t ∈ ["string", "number", "integer", "boolean", "array", "object"] then t
    else if hasKey fields "properties" then "object" else "string"
  | _ => if hasKey fields "properties" then "object" else "string"

/-- A tool descriptor as listed by an MCP server (`mcp_types.Tool`): name,
description (an arbitrary dynamic value, coerced by the client), and
`inputSchema`. -/
structure MCPTool where
  name : String
  description : JVal
  inputSchema : JVal

/-- The connection-phase state of `MultiMCPClient` relevant to tool routing:
the key set of `self.sessions` in insertion order (session objects are
opaque), the merged `self.all_mcp_tools` list, and the
`self.tool_to_server_map` dictionary.  `collisionWarnings` records the
duplicate-tool-name warnings printed at source lines 268-271 and 301-305, one
entry (the tool name) per printed warning. -/
structure ClientState where
  sessions : List String
  all_mcp_tools : List MCPTool
  tool_to_server_map : List (String × String)
  collisionWarnings : List String

/-- The state of a client that has not connected any server. -/
def emptyClientState : ClientState := ⟨[], [], [], []⟩

/-- First-match lookup in a string-valued dictionary
(`self.tool_to_server_map.get(...)`). -/
def lookupStr : List (String × String) → String → Option String
  | [], _ => none
  | (k, v) :: rest, key => if k = key then some v else lookupStr rest key

/-- Python dictionary assignment `d[k] = v`: replace the value in place when
the key exists, else append the new entry. -/
def dictSetStr (m : List (String × String)) (k v : String) :
    List (String × String) :=
  if (lookupStr m k).isSome then
    m.map (fun kv => if kv.1 = k then (k, v) else kv)
  else m ++ [(k, v)]

/-- Python dictionary assignment for `self.sessions[server_name] = session`,
tracking only the key set in insertion order. -/
def insertSession (l : List String) (n : String) : List String :=
  if n ∈ l then l else l ++ [n]

/-- The tool-registration loop at source lines 267-272 (and 301-306): for each
listed tool, warn when the name is already mapped, then point the name at the
current server (last writer wins). -/
def registerServerTools (st : ClientState) (serverName : String)
    (tools : List MCPTool) : ClientState :=
  tools.foldl
    (fun acc tool =>
      let acc1 :=
        if (lookupStr acc.tool_to_server_map tool.name).isSome then
          { acc with collisionWarnings := acc.collisionWarnings ++ [tool.name] }
        else acc
      { acc1 with
        tool_to_server_map := dictSetStr acc1.tool_to_server_map tool.name serverName })
    st

/-- How far a connection attempt got before an exception, if any: transport
setup, session construction, and `session.initialize()` all happen before the
registry assignment at source line 261 (`raisedBeforeRegistry`);
`session.list_tools()` at line 263 happens after it (`raisedAtListTools`);
`ok` carries the `list_tools` result (a falsy result becomes the empty tool
list, source line 264). -/
inductive ConnectOutcome where
  | raisedBeforeRegistry
  | raisedAtListTools
  | ok (listToolsResult : Option (List MCPTool))

/-- Whether the handshake (everything up to and including
`session.initialize()`) succeeded. -/
def ConnectOutcome.handshakeOk : ConnectOutcome → Bool
  | .raisedBeforeRegistry => false
  | _ => true

/-- Whether the initial tool listing succeeded. -/
def ConnectOutcome.listingOk : ConnectOutcome → Bool
  | .ok _ => true
  | _ => false

/-- `_connect_and_init_stdio` (source lines 239-275): skip when the config has
no truthy `command`; otherwise run the attempt, keeping exactly the state
mutations the source performs before the raise point (the whole attempt is
wrapped in `try/except Exception`, which only logs). -/
def connect_and_init_stdio (st : ClientState) (serverName : String)
    (command : Option String) (outcome : ConnectOutcome) : ClientState :=
  match command with
  | none => st
  | some c =>
    if c.isEmpty then st
    else
      match outcome with
      | .raisedBeforeRegistry => st
      | .raisedAtListTools =>
        { st with sessions := insertSession st.sessions serverName }
      | .ok listToolsResult =>
        let st1 := { st with sessions := insertSession st.sessions serverName }
        let serverTools := listToolsResult.getD []
        let st2 := { st1 with all_mcp_tools := st1.all_mcp_tools ++ serverTools }
        registerServerTools st2 serverName serverTools

/-- `_connect_and_init_sse` (source lines 277-308): identical shape, guarded
on `url` instead of `command`. -/
def connect_and_init_sse (st : ClientState) (serverName : String)
    (url : Option String) (outcome : ConnectOutcome) : ClientState :=
  match url with
  | none => st
  | some u =>
    if u.isEmpty then st
    else
      match outcome with
      | .raisedBeforeRegistry => st
      | .raisedAtListTools =>
        { st with sessions := insertSession st.sessions serverName }
      | .ok listToolsResult =>
        let st1 := { st with sessions := insertSession st.sessions serverName }
        let serverTools := listToolsResult.getD []
        let st2 := { st1 with all_mcp_tools := st1.all_mcp_tools ++ serverTools }
        registerServerTools st2 serverName serverTools

/-- A Gemini `FunctionDeclaration` as built by `_mcp_tools_to_gemini_tools`
(source lines 211-219): name, coerced description, and the cleaned parameters
(absent when cleaning yields nothing truthy). -/
structure FunctionDeclaration where
  name : String
  description : String
  parameters : Option JVal

/-- The `str(...)` coercion of a tool description (source lines 213-217). -/
def coerceDescription (d : JVal) : String :=
  match d with
  | .jstr s => s
  | v => pyStr v

/-- Build one `FunctionDeclaration` from a tool (source lines 207-219); the
`parameters` are the cleaned input schema when truthy, else absent. -/
def mkFunctionDeclaration (t : MCPTool) : FunctionDeclaration :=
  let cleanedParameters := clean t.inputSchema
  { name := t.name
    description := coerceDescription t.description
    parameters := if truthyOpt cleanedParameters then cleanedParameters else none }

/-- The deduplicating loop of `_mcp_tools_to_gemini_tools` (source lines
196-204): a tool whose name was already processed is skipped — the first
occurrence wins. -/
def geminiDeclsLoop : List MCPTool → List String → List FunctionDeclaration
  | [], _ => []
  | t :: rest, processed =>
    if t.name ∈ processed then geminiDeclsLoop rest processed
    else mkFunctionDeclaration t :: geminiDeclsLoop rest (t.name :: processed)

/-- `_mcp_tools_to_gemini_tools` (source lines 188-237), modeled as the list
of function declarations (the source wraps a non-empty list in a single
`Tool` object, and an exception from the external declaration constructor
would only drop that one declaration; the constructor itself performs no
checked work). -/
def mcp_tools_to_gemini_tools (tools : List MCPTool) : List FunctionDeclaration :=
  geminiDeclsLoop tools []

/-- The per-entry shape of a server config as inspected by
`connect_all_servers` (source lines 313-334): the optional `transport` value
and the presence of the `command` / `url` keys. -/
structure ServerConfigShape where
  transport : Option String
  hasCommand : Bool
  hasUrl : Bool

/-- What `connect_all_servers` decides for one entry. -/
inductive EntryDecision where
  | attemptStdio
  | skipNoCommand
  | attemptSse
  | skipNoUrl
  | skipUnsupported

/-- Python `str.lower` on the ASCII transport names, mapped over the
character list (equivalent to `String.toLower`, but evaluates by structural
recursion). -/
def pyLower (s : String) : String := ⟨s.data.map Char.toLower⟩

/-- The transport dispatch of `connect_all_servers` (source lines 313-334):
`config.get("transport", "stdio").lower()` selects stdio or SSE (after the
required-key presence checks), and anything else is skipped as unsupported.
`pyLower` models Python `str.lower`. -/
def entryDecision (c : ServerConfigShape) : EntryDecision :=
  let transportType := pyLower (c.transport.getD "stdio")
  if transportType = "stdio" then
    if c.hasCommand then .attemptStdio else .skipNoCommand
  else if transportType = "sse" then
    if c.hasUrl then .attemptSse else .skipNoUrl
  else .skipUnsupported

/-- The two-server collision scenario used to settle claim C2: a fresh client
connects server `sA` exposing tool `tA`, then server `sB` exposing tool
`tB`. -/
def twoServerScenario (sA sB : String) (tA tB : MCPTool) : ClientState :=
  connect_and_init_stdio
    (connect_and_init_stdio emptyClientState sA (some "cmdA") (.ok (some [tA])))
    sB (some "cmdB") (.ok (some [tB]))

/-- Python exception classes distinguished by the attachment handlers of
`process_query` (source lines 440-462). -/
inductive PyExcKind where
  | fileNotFound
  | unidentifiedImage
  | ioErr (msg : String)
  | otherErr (msg : String)

/-- Result of one external step that may raise. -/
inductive StepOutcome where
  | ok
  | raises (e : PyExcKind)

/-- What the filesystem/Pillow environment answers for one attachment path:
`Path.is_file()` (line 381), `mimetypes.guess_type` (line 383), the Pillow
open/verify/close/re-open/close sequence (lines 393-399), and the
`read_bytes` plus `Part.from_bytes` step (lines 416-419). -/
structure FileInfo where
  isFile : Bool
  mimeType : Option String
  verifyStep : StepOutcome
  partStep : StepOutcome

/-- Character-list prefix test: `charsStart pre s` holds when `pre` starts
the list `s` (used to model `str.startswith`). -/
def charsStart : List Char → List Char → Bool
  | [], _ => true
  | _ :: _, [] => false
  | c :: cs, d :: ds => c == d && charsStart cs ds

/-- Python `s.startswith(pre)` over the character lists (equivalent to
`String.startsWith`, but evaluates by structural recursion). -/
def pyStartsWith (s pre : String) : Bool := charsStart pre.data s.data

/-- The `mime_type and mime_type.startswith("image/")` test (line 387). -/
def isImageMime : Option String → Bool
  | some m => pyStartsWith m "image/"
  | none => false

/-- The error string returned for each attachment exception by the handlers
at source lines 440-462 (apostrophes written as `\x27`). -/
def attachmentErrorMessage (p : String) : PyExcKind → String
  | .fileNotFound => "오류: 첨부 파일 \x27" ++ p ++ "\x27을(를) 찾을 수 없습니다."
  | .unidentifiedImage =>
    "오류: 첨부 파일 \x27" ++ p ++ "\x27은(는) 유효한 이미지 파일이 아닙니다."
  | .ioErr msg => "오류: 첨부 파일 \x27" ++ p ++ "\x27 처리 중 IO 오류 발생: " ++ msg
  | .otherErr msg => "오류: 첨부 파일 처리 중 예기치 않은 오류 발생: " ++ msg

/-- Result of the attachment phase: proceed (with or without an image part),
or abort the turn with an error string. -/
inductive AttachResult where
  | proceed (hasImage : Bool)
  | abort (errMsg : String)

/-- The attachment-processing phase of `process_query` (source lines
371-470): only a verifiably-image file yields an image part; a missing file
or a non-image MIME type merely logs and proceeds text-only (lines 432-439);
an exception from Pillow validation or from reading/building the image part
propagates to the handlers at lines 440-462, which abort the turn with the
corresponding error string. -/
def processAttachment (firstPath : Option String) (pillowAvailable : Bool)
    (fs : String → FileInfo) : AttachResult :=
  match firstPath with
  | none => .proceed false
  | some p =>
    if pillowAvailable then
      let fi := fs p
      if fi.isFile then
        if isImageMime fi.mimeType then
          match fi.verifyStep with
          | .raises e => .abort (attachmentErrorMessage p e)
          | .ok =>
            match fi.partStep with
            | .raises e => .abort (attachmentErrorMessage p e)
            | .ok => .proceed true
        else .proceed false
      else .proceed false
    else .proceed false

/-- A content item of an MCP `call_tool` result, as the source distinguishes
them (lines 599-622): `TextContent`, `JsonContent` (carrying its
`model_dump_json()` output), or anything else (carrying the rendering of its
Python type, used in the fallback message at line 622). -/
inductive ContentPart where
  | textContent (text : String)
  | jsonContent (dumped : String)
  | otherContent (typeName : String)

/-- The shape of `mcp_result` as the source reads it (lines 594-623):
`isError`, the optional error message (the source reads
`mcp_result.error.message` and falls back to "Unknown error" when `error` is
falsy), and `content`. -/
structure MCPToolCallResult where
  isError : Bool
  errorMsg : Option String
  content : List ContentPart

/-- One `call_tool` invocation either raises or returns a result. -/
inductive ToolOutcome where
  | raises (msg : String)
  | result (r : MCPToolCallResult)

/-- Models `json.dumps` applied to a list of strings (line 617), without
re-escaping; no claim depends on the exact rendering. -/
def jsonDumpsStringList (xs : List String) : String :=
  "[" ++ String.intercalate ", " (xs.map (fun s => "\"" ++ s ++ "\"")) ++ "]"

/-- The rendering of `type(contentItem)` used by the fallback message. -/
def contentTypeName : ContentPart → String
  | .textContent _ => "TextContent"
  | .jsonContent _ => "JsonContent"
  | .otherContent tn => tn

/-- The `result_content` extraction of the tool-dispatch block (source lines
591-623): the error rendering when `isError`; the success default when
`content` is empty; else the newline-joined text contents; else the JSON dump
of the `JsonContent` items; else a message naming the first content item's
type. -/
def extractResultContent (toolName : String) (r : MCPToolCallResult) : String :=
  if r.isError then
    "[Error executing tool \x27" ++ toolName ++ "\x27: " ++
      r.errorMsg.getD "Unknown error" ++ "]"
  else if r.content.isEmpty then
    "[Tool executed successfully, no specific content returned]"
  else
    let textContents := r.content.filterMap
      (fun c => match c with | .textContent t => some t | _ => none)
    if textContents.isEmpty then
      let jsonContents := r.content.filterMap
        (fun c => match c with | .jsonContent j => some j | _ => none)
      if jsonContents.isEmpty then
        "[MCP 도구 \x27" ++ toolName ++ "\x27 결과 type: " ++
          contentTypeName (r.content.headD (.otherContent "")) ++ "]"
      else jsonDumpsStringList jsonContents
    else String.intercalate "\n" textContents

/-- Classification of `response.candidates[0].content.parts[0]` as the loop
tests it (lines 521-531): a part with truthy `text`, a part with a
`function_call` (name and parsed arguments; a parsing failure at lines
566-576 yields the empty argument map), or anything else (carrying its
rendering, used in the unexpected-shape error at line 678). -/
inductive GPart where
  | textPart (text : String)
  | funcCallPart (name : String) (args : List (String × JVal))
  | otherPart (rendered : String)

/-- One model response as the loop inspects it: no candidates, a candidate
with no content or no parts, or a first part. -/
inductive GResponse where
  | noCandidates
  | emptyContent
  | withPart (part : GPart)

/-- Error string returned when a candidate has no content and no text was
accumulated (source line 519). -/
def errNoValidResponse : String := "오류: AI로부터 유효한 응답을 받지 못했습니다."

/-- Error string for an unrecognized response part shape (source line 678). -/
def errUnexpectedShape (rendered : String) : String :=
  "오류: AI로부터 예상치 못한 응답 형식 수신: " ++ rendered

/-- Error payload sent back when the requested tool has no owner (source
line 543). -/
def errToolNotFound (toolName : String) : String :=
  "Error: Tool \x27" ++ toolName ++ "\x27 not found or not configured correctly."

/-- Error payload sent back when the owning server has no live session
(source line 559). -/
def errNoSession (serverName toolName : String) : String :=
  "Error: Could not find active session for server \x27" ++ serverName ++
    "\x27 required by tool \x27" ++ toolName ++ "\x27."

/-- Error payload sent back when `call_tool` raises (source line 652). -/
def errToolException (msg : String) : String :=
  "Error: Exception during tool execution: " ++ msg

/-- Error string returned when the chat session was never created (source
line 356). -/
def errModelNotReady : String := "오류: Gemini 모델이 초기화되지 않았습니다."

/-- The outcome of one turn of the orchestration loop: the returned string,
the function responses sent back to the model (tool name and `content`
payload, in order), and the client state when the loop finishes (the loop
only reads it). -/
structure TurnResult where
  answer : String
  sentFunctionResponses : List (String × String)
  finalState : ClientState

/-- Record one function response as sent, in front of what the continuation
sends. -/
def prependSent (toolName content : String) (tr : TurnResult) : TurnResult :=
  ⟨tr.answer, (toolName, content) :: tr.sentFunctionResponses, tr.finalState⟩

/-- `"\n".join(final_text_parts)` (source line 680). -/
def joinedText (parts : List String) : String := String.intercalate "\n" parts

/-- The next `call_tool` outcome from the tool-environment script; an
exhausted script raises (the theorems always supply enough outcomes). -/
def nextToolOutcome : List ToolOutcome → ToolOutcome × List ToolOutcome
  | [] => (.raises "tool environment exhausted", [])
  | o :: rest => (o, rest)

/-- The tool-dispatch block for one model-requested function call (source
lines 534-670): resolve the owner in `tool_to_server_map` (line 534) and the
session in `sessions` (line 550); when both exist, consume one `call_tool`
outcome.  The result is the `content` payload of the function response that
is sent back to the model in every case, together with the remaining
tool-outcome script. -/
def handleFuncCall (st : ClientState) (toolName : String)
    (toolScript : List ToolOutcome) : String × List ToolOutcome :=
  match lookupStr st.tool_to_server_map toolName with
  | none => (errToolNotFound toolName, toolScript)
  | some serverName =>
    if serverName ∈ st.sessions then
      match nextToolOutcome toolScript with
      | (.raises msg, toolScript2) => (errToolException msg, toolScript2)
      | (.result res, toolScript2) =>
        (extractResultContent toolName res, toolScript2)
    else (errNoSession serverName toolName, toolScript)

/-- The `while True` orchestration loop of `process_query` (source lines
507-680), driven by a script of model responses (one consumed per
`send_message`) and a script of tool outcomes (one consumed per `call_tool`).
In source order: no candidates breaks and the joined accumulated text is
returned (lines 509-511, 680); a candidate with empty content returns the
no-valid-response error unless text was accumulated (lines 514-519); a text
part is appended and the loop breaks (lines 523-525); a function-call part is
dispatched through `handleFuncCall` and in every case the resulting function
response is sent back and the loop continues; any other part shape returns
the unexpected-shape error unless text was accumulated (lines 671-678).  An
exhausted model script behaves as a no-candidates response. -/
def runLoop (st : ClientState) (finalTextParts : List String)
    (response : GResponse) (script : List GResponse)
    (toolScript : List ToolOutcome) : TurnResult :=
  match response with
  | .noCandidates => ⟨joinedText finalTextParts, [], st⟩
  | .emptyContent =>
    if finalTextParts.isEmpty then ⟨errNoValidResponse, [], st⟩
    else ⟨joinedText finalTextParts, [], st⟩
  | .withPart (.textPart s) => ⟨joinedText (finalTextParts ++ [s]), [], st⟩
  | .withPart (.otherPart rendered) =>
    if finalTextParts.isEmpty then ⟨errUnexpectedShape rendered, [], st⟩
    else ⟨joinedText finalTextParts, [], st⟩
  | .withPart (.funcCallPart toolName _args) =>
    let handled := handleFuncCall st toolName toolScript
    match script with
    | [] => prependSent toolName handled.1 ⟨joinedText finalTextParts, [], st⟩
    | r :: rest =>
      prependSent toolName handled.1 (runLoop st finalTextParts r rest handled.2)

/-- The continuation of the loop after sending a function response: consume
the next scripted model response (an exhausted script behaves as
`noCandidates`) and keep looping. -/
def continueTurn (st : ClientState) (finalTextParts : List String)
    (script : List GResponse) (toolScript : List ToolOutcome) : TurnResult :=
  match script with
  | [] => ⟨joinedText finalTextParts, [], st⟩
  | r :: rest => runLoop st finalTextParts r rest toolScript

/-- The `full_query` combination (source lines 359-364): a truthy
`additional_prompt` is prefixed. -/
def fullQueryOf (query : String) (additionalPrompt : Option String) : String :=
  match additionalPrompt with
  | some ap =>
    if ap.isEmpty then query else ap ++ "\n\n---\n\nUser Request:\n" ++ query
  | none => query

/-- `file_paths[0] if file_paths else None` (source line 373): the first
element when the list is truthy, else `None`. -/
def firstFilePath : Option (List String) → Option String
  | some (p :: _) => some p
  | _ => none

/-- The observable outcome of `process_query`: the returned string, the
function responses sent during the loop, the initial message sent to the
model (combined query text and whether an image part was attached; `none`
when the model was never contacted), and the client state afterwards. -/
structure QueryResult where
  answer : String
  sentFunctionResponses : List (String × String)
  initialSend : Option (String × Bool)
  finalState : ClientState

/-- `process_query` (source lines 341-685).  The empty-session-registry check
at line 353 only logs; `hasChatSession` models the `hasattr` check at line
355; `_mcp_tools_to_gemini_tools` (line 369) reads `all_mcp_tools` and its
result is only forwarded to the model API; `send_message` is modeled as
consuming the response script (the outer handler at lines 682-685 concerns
only real-API exceptions, which the script model does not produce). -/
def process_query (st : ClientState) (hasChatSession : Bool) (query : String)
    (additionalPrompt : Option String) (filePaths : Option (List String))
    (pillowAvailable : Bool) (fs : String → FileInfo)
    (script : List GResponse) (toolScript : List ToolOutcome) : QueryResult :=
  if hasChatSession = false then ⟨errModelNotReady, [], none, st⟩
  else
    let fullQuery := fullQueryOf query additionalPrompt
    match processAttachment (firstFilePath filePaths) pillowAvailable fs with
    | .abort errMsg => ⟨errMsg, [], none, st⟩
    | .proceed hasImage =>
      match script with
      | [] =>
        let tr := runLoop st [] .noCandidates [] toolScript
        ⟨tr.answer, tr.sentFunctionResponses, some (fullQuery, hasImage),
          tr.finalState⟩
      | r :: rest =>
        let tr := runLoop st [] r rest toolScript
        ⟨tr.answer, tr.sentFunctionResponses, some (fullQuery, hasImage),
          tr.finalState⟩

/-- Filesystem environment in which no path is an existing file. -/
def fsNoFile : String → FileInfo := fun _ => ⟨false, none, .ok, .ok⟩

/-! Basic lemmas about sizes, lookups, and the cleaner's components. -/

theorem jsize_pos (v : JVal) : 0 < jsize v := by
  cases v <;> simp [jsize]

theorem jsize_le_of_lookup {fields : List (String × JVal)} {k : String} {v : JVal}
    (h : lookupField fields k = some v) : jsize v ≤ jsizeFields fields := by
  induction fields with
  | nil => simp [lookupField] at h
  | cons kv rest ih =>
    obtain ⟨k', v'⟩ := kv
    simp only [lookupField] at h
    by_cases hk : k' = k
    · simp [hk] at h
      subst h
      simp [jsizeFields]
    · simp [hk] at h
      have := ih h
      simp [jsizeFields]
      omega

theorem jsize_le_of_mem {fields : List (String × JVal)} {kv : String × JVal}
    (h : kv ∈ fields) : jsize kv.2 ≤ jsizeFields fields := by
  induction fields with
  | nil => simp at h
  | cons hd rest ih =>
    obtain ⟨k', v'⟩ := hd
    rcases List.mem_cons.mp h with h1 | h2
    · subst h1
      simp [jsizeFields]
    · have := ih h2
      simp [jsizeFields]
      omega

theorem lookupField_append (l₁ l₂ : List (String × JVal)) (k : String) :
    lookupField (l₁ ++ l₂) k =
      match lookupField l₁ k with
      | some v => some v
      | none => lookupField l₂ k := by
  induction l₁ with
  | nil => simp [lookupField]
  | cons kv rest ih =>
    obtain ⟨k', v'⟩ := kv
    by_cases hk : k' = k <;> simp [lookupField, hk, ih]

theorem lookupField_cons_self (k : String) (v : JVal) (rest : List (String × JVal)) :
    lookupField ((k, v) :: rest) k = some v := by
  simp [lookupField]

theorem lookupField_cons_ne {k k' : String} (v : JVal) (rest : List (String × JVal))
    (h : k' ≠ k) : lookupField ((k', v) :: rest) k = lookupField rest k := by
  simp [lookupField, h]

theorem lookupField_descriptionPart {fields : List (String × JVal)} {k : String}
    (h : k ≠ "description") : lookupField (descriptionPart fields) k = none := by
  unfold descriptionPart
  split <;> simp [lookupField, Ne.symm h]

theorem lookupField_enumPart {ty : String} {fields : List (String × JVal)} {k : String}
    (h : k ≠ "enum") : lookupField (enumPart ty fields) k = none := by
  unfold enumPart
  split
  · split
    · dsimp only
      split <;> simp [lookupField, Ne.symm h]
    · simp [lookupField]
  · simp [lookupField]

theorem lookupField_requiredPart {cps fields : List (String × JVal)} {k : String}
    (h : k ≠ "required") : lookupField (requiredPart cps fields) k = none := by
  unfold requiredPart
  split
  · dsimp only
    split <;> simp [lookupField, Ne.symm h]
  · simp [lookupField]

theorem lookupField_objectPart {rec : JVal → Option JVal}
    {fields : List (String × JVal)} {k : String}
    (h1 : k ≠ "properties") (h2 : k ≠ "required") :
    lookupField (objectPart rec fields) k = none := by
  unfold objectPart
  split
  · dsimp only
    split
    · simp [lookupField]
    · simp [lookupField, Ne.symm h1, lookupField_requiredPart h2]
  · simp [lookupField]

theorem lookupField_itemsPart {rec : JVal → Option JVal}
    {fields : List (String × JVal)} {k : String} (h : k ≠ "items") :
    lookupField (itemsPart rec fields) k = none := by
  unfold itemsPart
  split
  · split <;> simp [lookupField, Ne.symm h]
  · simp [lookupField]

theorem lookup_of_pyGet_ne_null {fields : List (String × JVal)} {k : String} {v : JVal}
    (h : pyGet fields k = v) (hv : v ≠ .jnull) : lookupField fields k = some v := by
  unfold pyGet at h
  cases hl : lookupField fields k with
  | none => rw [hl] at h; simp at h; exact absurd h.symm hv
  | some w => rw [hl] at h; simp at h; rw [h]

theorem cleanF_jnull (n : Nat) : cleanF n .jnull = none := by
  cases n <;> rfl

theorem cleanF_not_jobj {s : JVal} (hs : ∀ fs, s ≠ JVal.jobj fs) (n : Nat) :
    cleanF n s = none := by
  cases n with
  | zero => rfl
  | succ n => cases s <;> first | rfl | exact absurd rfl (hs _)

theorem buildCleaned_isEmpty (rec : JVal → Option JVal) (fields : List (String × JVal)) :
    (buildCleaned rec fields).isEmpty = false := rfl

theorem cleanF_succ_jobj (n : Nat) (fields : List (String × JVal)) :
    cleanF (n + 1) (.jobj fields) = some (.jobj (buildCleaned (cleanF n) fields)) := by
  simp [cleanF, buildCleaned_isEmpty]

theorem cleanProps_congr {rec₁ rec₂ : JVal → Option JVal} :
    ∀ {props : List (String × JVal)}, (∀ kv ∈ props, rec₁ kv.2 = rec₂ kv.2) →
      cleanProps rec₁ props = cleanProps rec₂ props := by
  intro props
  induction props with
  | nil => intro _; rfl
  | cons kv rest ih =>
    intro h
    obtain ⟨k, v⟩ := kv
    have hv : rec₁ v = rec₂ v := h (k, v) (List.mem_cons_self _ _)
    have hr := ih (fun kv hm => h kv (List.mem_cons_of_mem _ hm))
    simp [cleanProps, hv, hr]

theorem buildCleaned_congr {rec₁ rec₂ : JVal → Option JVal} {fields : List (String × JVal)}
    (hp : ∀ props, pyGet fields "properties" = .jobj props →
      cleanProps rec₁ props = cleanProps rec₂ props)
    (hi : rec₁ (pyGet fields "items") = rec₂ (pyGet fields "items")) :
    buildCleaned rec₁ fields = buildCleaned rec₂ fields := by
  have hobj : objectPart rec₁ fields = objectPart rec₂ fields := by
    unfold objectPart
    cases hpy : pyGet fields "properties"
    case jobj props => dsimp only; rw [hp props hpy]
    all_goals rfl
  have hit : itemsPart rec₁ fields = itemsPart rec₂ fields := by
    unfold itemsPart
    rw [hi]
  unfold buildCleaned
  rw [hobj, hit]

theorem cleanF_stable : ∀ n m (s : JVal), jsize s ≤ n → jsize s ≤ m →
    cleanF n s = cleanF m s := by
  intro n
  induction n using Nat.strong_induction_on with
  | _ n ih =>
    intro m s hn hm
    cases s with
    | jobj fields =>
      have hpos := jsize_pos (JVal.jobj fields)
      obtain ⟨n', rfl⟩ : ∃ n', n = n' + 1 := ⟨n - 1, by omega⟩
      obtain ⟨m', rfl⟩ : ∃ m', m = m' + 1 := ⟨m - 1, by omega⟩
      have hsz : jsizeFields fields ≤ n' ∧ jsizeFields fields ≤ m' := by
        simp only [jsize] at hn hm; omega
      rw [cleanF_succ_jobj, cleanF_succ_jobj]
      refine congrArg (fun l => some (JVal.jobj l)) ?_
      apply buildCleaned_congr
      · intro props hpy
        apply cleanProps_congr
        intro kv hkv
        have hlk := lookup_of_pyGet_ne_null hpy (by intro hc; cases hc)
        have h1 : jsize (JVal.jobj props) ≤ jsizeFields fields := jsize_le_of_lookup hlk
        have h2 : jsize kv.2 ≤ jsizeFields props := jsize_le_of_mem hkv
        have h3 : jsize (JVal.jobj props) = 1 + jsizeFields props := by simp [jsize]
        exact ih n' (by omega) m' kv.2 (by omega) (by omega)
      · cases hit : lookupField fields "items" with
        | none =>
          have : pyGet fields "items" = .jnull := by unfold pyGet; rw [hit]; rfl
          rw [this, cleanF_jnull, cleanF_jnull]
        | some v =>
          have hpv : pyGet fields "items" = v := by unfold pyGet; rw [hit]; rfl
          have h1 : jsize v ≤ jsizeFields fields := jsize_le_of_lookup hit
          rw [hpv]
          exact ih n' (by omega) m' v (by omega) (by omega)
    | jnull => rw [cleanF_jnull, cleanF_jnull]
    | jbool b => rw [cleanF_not_jobj (by intro fs h; cases h), cleanF_not_jobj (by intro fs h; cases h)]
    | jint i => rw [cleanF_not_jobj (by intro fs h; cases h), cleanF_not_jobj (by intro fs h; cases h)]
    | jfloat t => rw [cleanF_not_jobj (by intro fs h; cases h), cleanF_not_jobj (by intro fs h; cases h)]
    | jstr t => rw [cleanF_not_jobj (by intro fs h; cases h), cleanF_not_jobj (by intro fs h; cases h)]
    | jarr l => rw [cleanF_not_jobj (by intro fs h; cases h), cleanF_not_jobj (by intro fs h; cases h)]

theorem cleanF_eq_clean {n : Nat} {s : JVal} (h : jsize s ≤ n) : cleanF n s = clean s :=
  cleanF_stable n (jsize s) s h (Nat.le_refl _)

theorem clean_jnull : clean .jnull = none := rfl

theorem clean_not_jobj {s : JVal} (hs : ∀ fs, s ≠ JVal.jobj fs) : clean s = none :=
  cleanF_not_jobj hs _

theorem clean_jobj (fields : List (String × JVal)) :
    clean (JVal.jobj fields) = some (.jobj (buildCleaned clean fields)) := by
  unfold clean
  obtain ⟨k, hk⟩ : ∃ k, jsize (JVal.jobj fields) = k + 1 :=
    ⟨jsize (JVal.jobj fields) - 1, by have := jsize_pos (JVal.jobj fields); omega⟩
  have hkf : jsizeFields fields = k := by simp only [jsize] at hk; omega
  rw [hk, cleanF_succ_jobj]
  refine congrArg (fun l => some (JVal.jobj l)) ?_
  apply buildCleaned_congr
  · intro props hpy
    apply cleanProps_congr
    intro kv hkv
    have hlk := lookup_of_pyGet_ne_null hpy (by intro hc; cases hc)
    have h1 : jsize (JVal.jobj props) ≤ jsizeFields fields := jsize_le_of_lookup hlk
    have h2 : jsize kv.2 ≤ jsizeFields props := jsize_le_of_mem hkv
    have h3 : jsize (JVal.jobj props) = 1 + jsizeFields props := by simp [jsize]
    exact cleanF_eq_clean (by omega)
  · cases hit : lookupField fields "items" with
    | none =>
      have : pyGet fields "items" = .jnull := by unfold pyGet; rw [hit]; rfl
      rw [this, cleanF_jnull]
      exact (cleanF_jnull _).symm
    | some v =>
      have hpv : pyGet fields "items" = v := by unfold pyGet; rw [hit]; rfl
      have h1 : jsize v ≤ jsizeFields fields := jsize_le_of_lookup hit
      rw [hpv]
      exact cleanF_eq_clean (by omega)

theorem lookupField_append_none {l₁ l₂ : List (String × JVal)} {k : String}
    (h : lookupField l₁ k = none) : lookupField (l₁ ++ l₂) k = lookupField l₂ k := by
  rw [lookupField_append, h]

theorem lookupField_append_some {l₁ l₂ : List (String × JVal)} {k : String} {v : JVal}
    (h : lookupField l₁ k = some v) : lookupField (l₁ ++ l₂) k = some v := by
  rw [lookupField_append, h]

theorem buildCleaned_eq (rec : JVal → Option JVal) (fields : List (String × JVal)) :
    buildCleaned rec fields = ("type", .jstr (chooseType fields)) ::
      (descriptionPart fields ++ enumPart (chooseType fields) fields ++
        (if chooseType fields = "object" then objectPart rec fields
         else if chooseType fields = "array" then itemsPart rec fields
         else [])) := rfl

theorem lookupField_tailPart {rec : JVal → Option JVal} {fields : List (String × JVal)}
    {k : String} (h1 : k ≠ "properties") (h2 : k ≠ "required") (h3 : k ≠ "items") :
    lookupField (if chooseType fields = "object" then objectPart rec fields
                 else if chooseType fields = "array" then itemsPart rec fields
                 else []) k = none := by
  split
  · exact lookupField_objectPart h1 h2
  · split
    · exact lookupField_itemsPart h3
    · rfl

theorem lookupField_buildCleaned_type (rec : JVal → Option JVal)
    (fields : List (String × JVal)) :
    lookupField (buildCleaned rec fields) "type" = some (.jstr (chooseType fields)) := by
  rw [buildCleaned_eq]
  exact lookupField_cons_self _ _ _

theorem lookupField_buildCleaned_description (rec : JVal → Option JVal)
    (fields : List (String × JVal)) :
    lookupField (buildCleaned rec fields) "description" =
      lookupField (descriptionPart fields) "description" := by
  rw [buildCleaned_eq, lookupField_cons_ne _ _ (by decide), List.append_assoc]
  cases hdp : lookupField (descriptionPart fields) "description" with
  | some v => rw [lookupField_append_some hdp]
  | none =>
    rw [lookupField_append_none hdp,
        lookupField_append_none (lookupField_enumPart (by decide)),
        lookupField_tailPart (by decide) (by decide) (by decide)]

theorem lookupField_buildCleaned_enum (rec : JVal → Option JVal)
    (fields : List (String × JVal)) :
    lookupField (buildCleaned rec fields) "enum" =
      lookupField (enumPart (chooseType fields) fields) "enum" := by
  rw [buildCleaned_eq, lookupField_cons_ne _ _ (by decide), List.append_assoc,
      lookupField_append_none (lookupField_descriptionPart (by decide))]
  cases hep : lookupField (enumPart (chooseType fields) fields) "enum" with
  | some v => rw [lookupField_append_some hep]
  | none =>
    rw [lookupField_append_none hep,
        lookupField_tailPart (by decide) (by decide) (by decide)]

theorem lookupField_buildCleaned_tail (rec : JVal → Option JVal)
    (fields : List (String × JVal)) {k : String}
    (h1 : k ≠ "type") (h2 : k ≠ "description") (h3 : k ≠ "enum") :
    lookupField (buildCleaned rec fields) k =
      lookupField (if chooseType fields = "object" then objectPart rec fields
                   else if chooseType fields = "array" then itemsPart rec fields
                   else []) k := by
  rw [buildCleaned_eq, lookupField_cons_ne _ _ (Ne.symm h1), List.append_assoc,
      lookupField_append_none (lookupField_descriptionPart h2),
      lookupField_append_none (lookupField_enumPart h3)]

theorem chooseType_mem_valid (fields : List (String × JVal)) :
    chooseType fields ∈ VALID_JSON_SCHEMA_TYPES := by
  unfold chooseType defaultTypeFor
  split
  · split
    · assumption
    · split <;> simp [VALID_JSON_SCHEMA_TYPES]
  · split <;> simp [VALID_JSON_SCHEMA_TYPES]

theorem pyGet_buildCleaned_type (rec : JVal → Option JVal)
    (fields : List (String × JVal)) :
    pyGet (buildCleaned rec fields) "type" = .jstr (chooseType fields) := by
  unfold pyGet
  rw [lookupField_buildCleaned_type]
  rfl

theorem chooseType_of_valid {fields : List (String × JVal)} {t : String}
    (h : pyGet fields "type" = .jstr t) (hv : t ∈ VALID_JSON_SCHEMA_TYPES) :
    chooseType fields = t := by
  unfold chooseType
  rw [h]
  exact if_pos hv

theorem chooseType_buildCleaned (rec : JVal → Option JVal)
    (fields : List (String × JVal)) :
    chooseType (buildCleaned rec fields) = chooseType fields :=
  chooseType_of_valid (pyGet_buildCleaned_type rec fields) (chooseType_mem_valid fields)

theorem descriptionPart_ext {f1 f2 : List (String × JVal)}
    (h : pyGet f1 "description" = pyGet f2 "description") :
    descriptionPart f1 = descriptionPart f2 := by
  unfold descriptionPart
  rw [h]

theorem enumPart_ext {ty : String} {f1 f2 : List (String × JVal)}
    (h : pyGet f1 "enum" = pyGet f2 "enum") :
    enumPart ty f1 = enumPart ty f2 := by
  unfold enumPart
  rw [h]

theorem requiredPart_ext {cps : List (String × JVal)} {f1 f2 : List (String × JVal)}
    (h : pyGet f1 "required" = pyGet f2 "required") :
    requiredPart cps f1 = requiredPart cps f2 := by
  unfold requiredPart
  rw [h]

theorem descriptionPart_self (fields : List (String × JVal)) :
    descriptionPart (descriptionPart fields) = descriptionPart fields := by
  have key : ∀ d : String, descriptionPart [("description", JVal.jstr d)] =
      [("description", JVal.jstr d)] := by
    intro d
    simp [descriptionPart, pyGet, lookupField]
  cases hpd : pyGet fields "description" with
  | jnull =>
    have h1 : descriptionPart fields = [] := by unfold descriptionPart; rw [hpd]
    rw [h1]
    rfl
  | jstr d =>
    have h1 : descriptionPart fields = [("description", JVal.jstr d)] := by
      unfold descriptionPart; rw [hpd]
    rw [h1]; exact key d
  | jbool b =>
    have h1 : descriptionPart fields = [("description", JVal.jstr (pyStr (.jbool b)))] := by
      unfold descriptionPart; rw [hpd]
    rw [h1]; exact key _
  | jint n =>
    have h1 : descriptionPart fields = [("description", JVal.jstr (pyStr (.jint n)))] := by
      unfold descriptionPart; rw [hpd]
    rw [h1]; exact key _
  | jfloat t =>
    have h1 : descriptionPart fields = [("description", JVal.jstr (pyStr (.jfloat t)))] := by
      unfold descriptionPart; rw [hpd]
    rw [h1]; exact key _
  | jarr l =>
    have h1 : descriptionPart fields = [("description", JVal.jstr (pyStr (.jarr l)))] := by
      unfold descriptionPart; rw [hpd]
    rw [h1]; exact key _
  | jobj fs =>
    have h1 : descriptionPart fields = [("description", JVal.jstr (pyStr (.jobj fs)))] := by
      unfold descriptionPart; rw [hpd]
    rw [h1]; exact key _

theorem enumPart_self (ty : String) (fields : List (String × JVal)) :
    enumPart ty (enumPart ty fields) = enumPart ty fields := by
  cases hpe : pyGet fields "enum" with
  | jarr vs =>
    by_cases hty : ty ∈ ["string", "number", "integer"]
    · by_cases hemp : (vs.filter isScalarEnumVal).isEmpty = true
      · have h1 : enumPart ty fields = [] := by
          unfold enumPart; rw [hpe]; dsimp only; rw [if_pos hty, if_pos hemp]
        rw [h1]; rfl
      · have h1 : enumPart ty fields = [("enum", .jarr (vs.filter isScalarEnumVal))] := by
          unfold enumPart; rw [hpe]; dsimp only; rw [if_pos hty, if_neg hemp]
        rw [h1]
        have h2 : pyGet [("enum", JVal.jarr (vs.filter isScalarEnumVal))] "enum" =
            .jarr (vs.filter isScalarEnumVal) := by
          simp [pyGet, lookupField]
        have h3 : (vs.filter isScalarEnumVal).filter isScalarEnumVal =
            vs.filter isScalarEnumVal :=
          List.filter_eq_self.mpr (fun a ha => List.of_mem_filter ha)
        unfold enumPart
        rw [h2]
        dsimp only
        rw [if_pos hty, h3, if_neg hemp]
    · have h1 : enumPart ty fields = [] := by
        unfold enumPart; rw [hpe]; dsimp only; rw [if_neg hty]
      rw [h1]; rfl
  | jnull =>
    have h1 : enumPart ty fields = [] := by unfold enumPart; rw [hpe]
    rw [h1]; rfl
  | jbool b =>
    have h1 : enumPart ty fields = [] := by unfold enumPart; rw [hpe]
    rw [h1]; rfl
  | jint n =>
    have h1 : enumPart ty fields = [] := by unfold enumPart; rw [hpe]
    rw [h1]; rfl
  | jfloat t =>
    have h1 : enumPart ty fields = [] := by unfold enumPart; rw [hpe]
    rw [h1]; rfl
  | jstr s =>
    have h1 : enumPart ty fields = [] := by unfold enumPart; rw [hpe]
    rw [h1]; rfl
  | jobj fs =>
    have h1 : enumPart ty fields = [] := by unfold enumPart; rw [hpe]
    rw [h1]; rfl

theorem cleanProps_mem_char {rec : JVal → Option JVal} :
    ∀ {props : List (String × JVal)} {kv : String × JVal}, kv ∈ cleanProps rec props →
      ∃ v, (kv.1, v) ∈ props ∧ rec v = some kv.2 ∧ truthyJ kv.2 = true := by
  intro props
  induction props with
  | nil => intro kv h; simp [cleanProps] at h
  | cons hd rest ih =>
    intro kv h
    obtain ⟨k, v⟩ := hd
    simp only [cleanProps] at h
    cases hr : rec v with
    | some cp =>
      rw [hr] at h
      dsimp only at h
      by_cases ht : truthyJ cp = true
      · rw [if_pos ht] at h
        rcases List.mem_cons.mp h with h1 | h2
        · subst h1
          exact ⟨v, List.mem_cons_self _ _, hr, ht⟩
        · obtain ⟨w, hw1, hw2, hw3⟩ := ih h2
          exact ⟨w, List.mem_cons_of_mem _ hw1, hw2, hw3⟩
      · rw [if_neg ht] at h
        obtain ⟨w, hw1, hw2, hw3⟩ := ih h
        exact ⟨w, List.mem_cons_of_mem _ hw1, hw2, hw3⟩
    | none =>
      rw [hr] at h
      dsimp only at h
      obtain ⟨w, hw1, hw2, hw3⟩ := ih h
      exact ⟨w, List.mem_cons_of_mem _ hw1, hw2, hw3⟩

theorem cleanProps_fixed {rec : JVal → Option JVal} :
    ∀ {cps : List (String × JVal)},
      (∀ kv ∈ cps, rec kv.2 = some kv.2 ∧ truthyJ kv.2 = true) →
      cleanProps rec cps = cps := by
  intro cps
  induction cps with
  | nil => intro _; rfl
  | cons kv rest ih =>
    intro h
    obtain ⟨k, v⟩ := kv
    have h1 := h (k, v) (List.mem_cons_self _ _)
    have hr := ih (fun kv hm => h kv (List.mem_cons_of_mem _ hm))
    simp only [cleanProps, h1.1, if_pos h1.2, hr]

theorem clean_some_inv {s c : JVal} (h : clean s = some c) :
    ∃ fields, s = JVal.jobj fields ∧ c = JVal.jobj (buildCleaned clean fields) := by
  cases s with
  | jobj fields =>
    rw [clean_jobj] at h
    refine ⟨fields, rfl, ?_⟩
    injection h with h
    exact h.symm
  | jnull => rw [clean_not_jobj (by intro fs hc; cases hc)] at h; cases h
  | jbool b => rw [clean_not_jobj (by intro fs hc; cases hc)] at h; cases h
  | jint n => rw [clean_not_jobj (by intro fs hc; cases hc)] at h; cases h
  | jfloat t => rw [clean_not_jobj (by intro fs hc; cases hc)] at h; cases h
  | jstr t => rw [clean_not_jobj (by intro fs hc; cases hc)] at h; cases h
  | jarr l => rw [clean_not_jobj (by intro fs hc; cases hc)] at h; cases h

theorem clean_truthy {s c : JVal} (h : clean s = some c) : truthyJ c = true := by
  obtain ⟨fields, rfl, rfl⟩ := clean_some_inv h
  rw [buildCleaned_eq]
  simp [truthyJ]

theorem requiredPart_self (cps fields : List (String × JVal)) :
    requiredPart cps (requiredPart cps fields) = requiredPart cps fields := by
  cases hpr : pyGet fields "required" with
  | jarr reqs =>
    by_cases hemp : (reqs.filter (isReqKept cps)).isEmpty = true
    · have h1 : requiredPart cps fields = [] := by
        unfold requiredPart; rw [hpr]; dsimp only; rw [if_pos hemp]
      rw [h1]; rfl
    · have h1 : requiredPart cps fields =
          [("required", .jarr (reqs.filter (isReqKept cps)))] := by
        unfold requiredPart; rw [hpr]; dsimp only; rw [if_neg hemp]
      rw [h1]
      have h2 : pyGet [("required", JVal.jarr (reqs.filter (isReqKept cps)))] "required" =
          .jarr (reqs.filter (isReqKept cps)) := by
        simp [pyGet, lookupField]
      have h3 : (reqs.filter (isReqKept cps)).filter (isReqKept cps) =
          reqs.filter (isReqKept cps) :=
        List.filter_eq_self.mpr (fun a ha => List.of_mem_filter ha)
      unfold requiredPart
      rw [h2]
      dsimp only
      rw [h3, if_neg hemp]
  | jnull =>
    have h1 : requiredPart cps fields = [] := by unfold requiredPart; rw [hpr]
    rw [h1]; rfl
  | jbool b =>
    have h1 : requiredPart cps fields = [] := by unfold requiredPart; rw [hpr]
    rw [h1]; rfl
  | jint n =>
    have h1 : requiredPart cps fields = [] := by unfold requiredPart; rw [hpr]
    rw [h1]; rfl
  | jfloat t =>
    have h1 : requiredPart cps fields = [] := by unfold requiredPart; rw [hpr]
    rw [h1]; rfl
  | jstr s =>
    have h1 : requiredPart cps fields = [] := by unfold requiredPart; rw [hpr]
    rw [h1]; rfl
  | jobj fs =>
    have h1 : requiredPart cps fields = [] := by unfold requiredPart; rw [hpr]
    rw [h1]; rfl

theorem objectPart_eq_nil_or (rec : JVal → Option JVal) (fields : List (String × JVal)) :
    objectPart rec fields = [] ∨
      ∃ props, pyGet fields "properties" = .jobj props ∧
        (cleanProps rec props).isEmpty = false ∧
        objectPart rec fields =
          ("properties", .jobj (cleanProps rec props)) ::
            requiredPart (cleanProps rec props) fields := by
  cases hpp : pyGet fields "properties" with
  | jobj props =>
    by_cases hemp : (cleanProps rec props).isEmpty = true
    · exact Or.inl (by unfold objectPart; rw [hpp]; dsimp only; rw [if_pos hemp])
    · refine Or.inr ⟨props, rfl, by simpa using hemp, ?_⟩
      unfold objectPart; rw [hpp]; dsimp only; rw [if_neg hemp]
  | jnull => exact Or.inl (by unfold objectPart; rw [hpp])
  | jbool b => exact Or.inl (by unfold objectPart; rw [hpp])
  | jint n => exact Or.inl (by unfold objectPart; rw [hpp])
  | jfloat t => exact Or.inl (by unfold objectPart; rw [hpp])
  | jstr s => exact Or.inl (by unfold objectPart; rw [hpp])
  | jarr l => exact Or.inl (by unfold objectPart; rw [hpp])

theorem itemsPart_eq_nil_or (rec : JVal → Option JVal) (fields : List (String × JVal)) :
    itemsPart rec fields = [] ∨
      ∃ ci, rec (pyGet fields "items") = some ci ∧ truthyJ ci = true ∧
        itemsPart rec fields = [("items", ci)] := by
  cases hr : rec (pyGet fields "items") with
  | none => exact Or.inl (by unfold itemsPart; rw [hr])
  | some ci =>
    by_cases ht : truthyJ ci = true
    · exact Or.inr ⟨ci, rfl, ht, by unfold itemsPart; rw [hr]; dsimp only; rw [if_pos ht]⟩
    · exact Or.inl (by unfold itemsPart; rw [hr]; dsimp only; rw [if_neg ht])

theorem objectPart_fixed {fields : List (String × JVal)}
    (IH : ∀ s c : JVal, jsize s ≤ jsizeFields fields → clean s = some c → clean c = some c)
    (hobj : chooseType fields = "object") :
    objectPart clean (buildCleaned clean fields) = objectPart clean fields := by
  have hlk : lookupField (buildCleaned clean fields) "properties" =
      lookupField (objectPart clean fields) "properties" := by
    rw [lookupField_buildCleaned_tail clean fields (by decide) (by decide) (by decide),
        if_pos hobj]
  rcases objectPart_eq_nil_or clean fields with hop | ⟨props, hpp, hne, hop⟩
  · rw [hop] at hlk
    have hpg : pyGet (buildCleaned clean fields) "properties" = .jnull := by
      unfold pyGet; rw [hlk]; rfl
    rw [hop]
    unfold objectPart
    rw [hpg]
  · have hfix : cleanProps clean (cleanProps clean props) = cleanProps clean props := by
      apply cleanProps_fixed
      intro kv hkv
      obtain ⟨v, hv1, hv2, hv3⟩ := cleanProps_mem_char hkv
      have hlkp := lookup_of_pyGet_ne_null hpp (by intro hc; cases hc)
      have hb1 : jsize (JVal.jobj props) ≤ jsizeFields fields := jsize_le_of_lookup hlkp
      have hb2 : jsize v ≤ jsizeFields props := jsize_le_of_mem hv1
      have hb3 : jsize (JVal.jobj props) = 1 + jsizeFields props := by simp [jsize]
      exact ⟨IH v kv.2 (by omega) hv2, hv3⟩
    have hne' : ¬ (cleanProps clean props).isEmpty = true := by simp [hne]
    rw [hop] at hlk
    rw [lookupField_cons_self] at hlk
    have hpg : pyGet (buildCleaned clean fields) "properties" =
        .jobj (cleanProps clean props) := by
      unfold pyGet; rw [hlk]; rfl
    have hreq_lk : lookupField (buildCleaned clean fields) "required" =
        lookupField (requiredPart (cleanProps clean props) fields) "required" := by
      rw [lookupField_buildCleaned_tail clean fields (by decide) (by decide) (by decide),
          if_pos hobj, hop, lookupField_cons_ne _ _ (by decide)]
    have hreq_ext : pyGet (buildCleaned clean fields) "required" =
        pyGet (requiredPart (cleanProps clean props) fields) "required" := by
      unfold pyGet; rw [hreq_lk]
    rw [hop]
    unfold objectPart
    rw [hpg]
    dsimp only
    rw [hfix, if_neg hne']
    congr 1
    rw [requiredPart_ext hreq_ext, requiredPart_self]

theorem itemsPart_fixed {fields : List (String × JVal)}
    (IH : ∀ s c : JVal, jsize s ≤ jsizeFields fields → clean s = some c → clean c = some c)
    (harr : chooseType fields = "array") :
    itemsPart clean (buildCleaned clean fields) = itemsPart clean fields := by
  have hobj : ¬ chooseType fields = "object" := by rw [harr]; decide
  have hlk : lookupField (buildCleaned clean fields) "items" =
      lookupField (itemsPart clean fields) "items" := by
    rw [lookupField_buildCleaned_tail clean fields (by decide) (by decide) (by decide),
        if_neg hobj, if_pos harr]
  rcases itemsPart_eq_nil_or clean fields with hit | ⟨ci, hci, htr, hit⟩
  · rw [hit] at hlk
    have hpg : pyGet (buildCleaned clean fields) "items" = .jnull := by
      unfold pyGet; rw [hlk]; rfl
    rw [hit]
    unfold itemsPart
    rw [hpg, clean_jnull]
  · rw [hit] at hlk
    rw [lookupField_cons_self] at hlk
    have hpg : pyGet (buildCleaned clean fields) "items" = ci := by
      unfold pyGet; rw [hlk]; rfl
    cases hl : lookupField fields "items" with
    | none =>
      have hv : pyGet fields "items" = .jnull := by unfold pyGet; rw [hl]; rfl
      rw [hv, clean_jnull] at hci
      cases hci
    | some v =>
      have hpv : pyGet fields "items" = v := by unfold pyGet; rw [hl]; rfl
      have hb : jsize v ≤ jsizeFields fields := jsize_le_of_lookup hl
      rw [hpv] at hci
      have hidem : clean ci = some ci := IH v ci hb hci
      rw [hit]
      unfold itemsPart
      rw [hpg, hidem]
      dsimp only
      rw [if_pos htr]

theorem buildCleaned_fixed {fields : List (String × JVal)}
    (IH : ∀ s c : JVal, jsize s ≤ jsizeFields fields → clean s = some c → clean c = some c) :
    buildCleaned clean (buildCleaned clean fields) = buildCleaned clean fields := by
  have hdesc : descriptionPart (buildCleaned clean fields) = descriptionPart fields := by
    have hext : pyGet (buildCleaned clean fields) "description" =
        pyGet (descriptionPart fields) "description" := by
      unfold pyGet; rw [lookupField_buildCleaned_description]
    rw [descriptionPart_ext hext, descriptionPart_self]
  have henum : enumPart (chooseType fields) (buildCleaned clean fields) =
      enumPart (chooseType fields) fields := by
    have hext : pyGet (buildCleaned clean fields) "enum" =
        pyGet (enumPart (chooseType fields) fields) "enum" := by
      unfold pyGet; rw [lookupField_buildCleaned_enum]
    rw [enumPart_ext hext, enumPart_self]
  conv_lhs => rw [buildCleaned_eq]
  conv_rhs => rw [buildCleaned_eq]
  rw [chooseType_buildCleaned, hdesc, henum]
  congr 2
  by_cases hobj : chooseType fields = "object"
  · rw [if_pos hobj, if_pos hobj, objectPart_fixed IH hobj]
  · by_cases harr : chooseType fields = "array"
    · rw [if_neg hobj, if_neg hobj, if_pos harr, if_pos harr, itemsPart_fixed IH harr]
    · rw [if_neg hobj, if_neg hobj, if_neg harr, if_neg harr]

theorem clean_idem_aux :
    ∀ N, ∀ s c : JVal, jsize s ≤ N → clean s = some c → clean c = some c := by
  intro N
  induction N using Nat.strong_induction_on with
  | _ N ih =>
    intro s c hN hsc
    obtain ⟨fields, rfl, rfl⟩ := clean_some_inv hsc
    rw [clean_jobj]
    refine congrArg (fun l => some (JVal.jobj l)) ?_
    apply buildCleaned_fixed
    intro s' c' hs' hsc'
    have hjs : jsize (JVal.jobj fields) = 1 + jsizeFields fields := by simp [jsize]
    have hlt : jsize s' < N := by omega
    exact ih (jsize s') hlt s' c' (Nat.le_refl _) hsc'

theorem chooseType_eq_spec (fields : List (String × JVal)) :
    chooseType fields = specExpectedType fields := by
  unfold chooseType specExpectedType pyGet defaultTypeFor VALID_JSON_SCHEMA_TYPES
  cases lookupField fields "type" with
  | none => rfl
  | some v => cases v <;> rfl

/-- Claim C5: for every input, `_clean_schema_for_gemini` returns absent if
and only if the input is not a dictionary; for every dictionary input it
returns a schema whose first entry is a `type` field, equal to the input's
`type` when that is a string in the allowed set and otherwise defaulted to
`object` when the input has a `properties` key and to `string` when it does
not. -/
theorem c5_clean_root_type :
    (∀ s : JVal, clean s = none ↔ ∀ fs, s ≠ JVal.jobj fs) ∧
    (∀ fields : List (String × JVal), ∃ rest,
      clean (JVal.jobj fields) = some (JVal.jobj
        (("type", JVal.jstr (specExpectedType fields)) :: rest))) := by
  constructor
  · intro s
    constructor
    · intro h fs hs
      subst hs
      rw [clean_jobj] at h
      cases h
    · intro h
      exact clean_not_jobj h
  · intro fields
    refine ⟨descriptionPart fields ++ enumPart (chooseType fields) fields ++
      (if chooseType fields = "object" then objectPart clean fields
       else if chooseType fields = "array" then itemsPart clean fields
       else []), ?_⟩
    rw [clean_jobj, buildCleaned_eq, chooseType_eq_spec]

/-- Claim C6: the schema cleaner is idempotent — whenever cleaning an input
dictionary yields a schema, cleaning that schema again yields it unchanged
(the cleaned output is a fixed point of `_clean_schema_for_gemini`). -/
theorem c6_clean_idempotent (s c : JVal) (h : clean s = some c) : clean c = some c :=
  clean_idem_aux (jsize s) s c (Nat.le_refl _) h

/-- Witness for C6 at a concrete input exercising the type default and the
description coercion. -/
theorem c6_clean_idempotent_witness :
    clean (JVal.jobj [("type", JVal.jstr "string"), ("description", JVal.jstr "5")]) =
      some (JVal.jobj [("type", JVal.jstr "string"), ("description", JVal.jstr "5")]) :=
  c6_clean_idempotent
    (JVal.jobj [("type", JVal.jstr "bogus"), ("description", JVal.jint 5)])
    (JVal.jobj [("type", JVal.jstr "string"), ("description", JVal.jstr "5")])
    (by rfl)

theorem mem_insertSession (l : List String) (n m : String) :
    m ∈ insertSession l n ↔ m ∈ l ∨ m = n := by
  unfold insertSession
  by_cases h : n ∈ l
  · rw [if_pos h]
    constructor
    · exact Or.inl
    · rintro (hm | rfl)
      · exact hm
      · exact h
  · rw [if_neg h]
    simp

theorem registerServerTools_preserves (n : String) :
    ∀ (ts : List MCPTool) (st : ClientState),
      (registerServerTools st n ts).sessions = st.sessions ∧
      (registerServerTools st n ts).all_mcp_tools = st.all_mcp_tools := by
  intro ts
  induction ts with
  | nil => intro st; exact ⟨rfl, rfl⟩
  | cons t rest ih =>
    intro st
    have hstep : registerServerTools st n (t :: rest) =
        registerServerTools
          (let acc1 :=
            if (lookupStr st.tool_to_server_map t.name).isSome then
              { st with collisionWarnings := st.collisionWarnings ++ [t.name] }
            else st
           { acc1 with
             tool_to_server_map := dictSetStr acc1.tool_to_server_map t.name n })
          n rest := rfl
    rw [hstep]
    refine ⟨?_, ?_⟩
    · rw [(ih _).1]
      by_cases h : (lookupStr st.tool_to_server_map t.name).isSome <;> simp [h]
    · rw [(ih _).2]
      by_cases h : (lookupStr st.tool_to_server_map t.name).isSome <;> simp [h]

/-- Claim C7 (amended): for both transports, a server name enters the session
registry exactly when its handshake (`session.initialize`) succeeded — even
when the subsequent `list_tools` raises; the tool catalog (`all_mcp_tools`,
`tool_to_server_map`, and the collision warnings) is touched only when the
listing also succeeded; a failure before the handshake completes, or a config
with a missing/falsy required field, leaves the state entirely unchanged. -/
theorem c7_registry_handshake_catalog_listing :
    ∀ (st : ClientState) (name c u : String) (out : ConnectOutcome),
      (∀ out', connect_and_init_stdio st name none out' = st ∧
               connect_and_init_sse st name none out' = st) ∧
      (¬ c.isEmpty = true →
        ((name ∈ (connect_and_init_stdio st name (some c) out).sessions ↔
            name ∈ st.sessions ∨ out.handshakeOk = true) ∧
         (out.listingOk = false →
            (connect_and_init_stdio st name (some c) out).all_mcp_tools =
              st.all_mcp_tools ∧
            (connect_and_init_stdio st name (some c) out).tool_to_server_map =
              st.tool_to_server_map ∧
            (connect_and_init_stdio st name (some c) out).collisionWarnings =
              st.collisionWarnings) ∧
         (out.handshakeOk = false → connect_and_init_stdio st name (some c) out = st))) ∧
      (¬ u.isEmpty = true →
        ((name ∈ (connect_and_init_sse st name (some u) out).sessions ↔
            name ∈ st.sessions ∨ out.handshakeOk = true) ∧
         (out.listingOk = false →
            (connect_and_init_sse st name (some u) out).all_mcp_tools =
              st.all_mcp_tools ∧
            (connect_and_init_sse st name (some u) out).tool_to_server_map =
              st.tool_to_server_map ∧
            (connect_and_init_sse st name (some u) out).collisionWarnings =
              st.collisionWarnings) ∧
         (out.handshakeOk = false → connect_and_init_sse st name (some u) out = st))) := by
  intro st name c u out
  refine ⟨fun out' => ⟨rfl, rfl⟩, ?_, ?_⟩
  · intro hc
    unfold connect_and_init_stdio
    dsimp only
    rw [if_neg hc]
    cases out with
    | raisedBeforeRegistry =>
      refine ⟨?_, fun _ => ⟨rfl, rfl, rfl⟩, fun _ => rfl⟩
      simp [ConnectOutcome.handshakeOk]
    | raisedAtListTools =>
      refine ⟨?_, fun _ => ⟨rfl, rfl, rfl⟩, ?_⟩
      · simp [ConnectOutcome.handshakeOk, mem_insertSession]
      · intro h; simp [ConnectOutcome.handshakeOk] at h
    | ok lr =>
      refine ⟨?_, ?_, ?_⟩
      · have hp := (registerServerTools_preserves name (lr.getD [])
          { st with
            sessions := insertSession st.sessions name,
            all_mcp_tools := st.all_mcp_tools ++ lr.getD [] }).1
        dsimp only
        rw [hp]
        simp [ConnectOutcome.handshakeOk, mem_insertSession]
      · intro h; simp [ConnectOutcome.listingOk] at h
      · intro h; simp [ConnectOutcome.handshakeOk] at h
  · intro hu
    unfold connect_and_init_sse
    dsimp only
    rw [if_neg hu]
    cases out with
    | raisedBeforeRegistry =>
      refine ⟨?_, fun _ => ⟨rfl, rfl, rfl⟩, fun _ => rfl⟩
      simp [ConnectOutcome.handshakeOk]
    | raisedAtListTools =>
      refine ⟨?_, fun _ => ⟨rfl, rfl, rfl⟩, ?_⟩
      · simp [ConnectOutcome.handshakeOk, mem_insertSession]
      · intro h; simp [ConnectOutcome.handshakeOk] at h
    | ok lr =>
      refine ⟨?_, ?_, ?_⟩
      · have hp := (registerServerTools_preserves name (lr.getD [])
          { st with
            sessions := insertSession st.sessions name,
            all_mcp_tools := st.all_mcp_tools ++ lr.getD [] }).1
        dsimp only
        rw [hp]
        simp [ConnectOutcome.handshakeOk, mem_insertSession]
      · intro h; simp [ConnectOutcome.listingOk] at h
      · intro h; simp [ConnectOutcome.handshakeOk] at h

/-- Witness for C7 at concrete inputs: a listing failure on a fresh client
still registers the session, and a handshake failure changes nothing. -/
theorem c7_registry_handshake_catalog_listing_witness :
    ("srv" ∈ (connect_and_init_stdio emptyClientState "srv" (some "cmd")
        .raisedAtListTools).sessions ↔
      "srv" ∈ emptyClientState.sessions ∨
        ConnectOutcome.raisedAtListTools.handshakeOk = true) ∧
    (connect_and_init_sse emptyClientState "srv" (some "url")
        .raisedBeforeRegistry = emptyClientState) :=
  ⟨((c7_registry_handshake_catalog_listing emptyClientState "srv" "cmd" "url"
      .raisedAtListTools).2.1 (by decide)).1,
   ((c7_registry_handshake_catalog_listing emptyClientState "srv" "cmd" "url"
      .raisedBeforeRegistry).2.2 (by decide)).2.2 (by rfl)⟩

/-- Counterexample to claim C7 as stated: when `session.list_tools()` raises
after a successful handshake, the server name is already in the session
registry (the source assigns `self.sessions[server_name]` at line 261, before
calling `list_tools` at line 263), so the registry is not left unchanged for
a server whose connection attempt failed after the handshake. -/
theorem c7_counterexample_listing_failure_populates_registry :
    (connect_and_init_stdio emptyClientState "srv" (some "cmd")
        .raisedAtListTools).sessions = ["srv"] ∧
    (connect_and_init_stdio emptyClientState "srv" (some "cmd")
        .raisedAtListTools).all_mcp_tools = [] ∧
    (connect_and_init_stdio emptyClientState "srv" (some "cmd")
        .raisedAtListTools).tool_to_server_map = [] :=
  ⟨rfl, rfl, rfl⟩

theorem twoServerScenario_eq (sA sB : String) (tA tB : MCPTool)
    (hname : tA.name = tB.name) :
    twoServerScenario sA sB tA tB =
      ⟨insertSession [sA] sB, [tA, tB], [(tB.name, sB)], [tB.name]⟩ := by
  have hcA : ¬ ("cmdA" : String).isEmpty = true := by decide
  have hcB : ¬ ("cmdB" : String).isEmpty = true := by decide
  have h1 : connect_and_init_stdio emptyClientState sA (some "cmdA")
      (.ok (some [tA])) = ⟨[sA], [tA], [(tA.name, sA)], []⟩ := by
    unfold connect_and_init_stdio
    dsimp only
    rw [if_neg hcA]
    simp [emptyClientState, insertSession, registerServerTools, lookupStr, dictSetStr]
  unfold twoServerScenario
  rw [h1]
  unfold connect_and_init_stdio
  dsimp only
  rw [if_neg hcB]
  simp [insertSession, registerServerTools, lookupStr, dictSetStr, hname]

/-- Claim C2 (amended): when two servers are connected in order and both
expose a tool with the same name, the capability catalog maps the name to the
server processed last and exactly one collision warning is recorded, but the
deduplicated `ToolDescriptor` projected into the model's function
declarations is the one from the FIRST-processed server
(`_mcp_tools_to_gemini_tools` skips later duplicates, source lines 199-204),
not from the winning (last-processed) owner. -/
theorem c2_owner_last_declaration_first (sA sB : String) (tA tB : MCPTool)
    (hname : tA.name = tB.name) :
    lookupStr (twoServerScenario sA sB tA tB).tool_to_server_map tB.name = some sB ∧
    (twoServerScenario sA sB tA tB).collisionWarnings = [tB.name] ∧
    mcp_tools_to_gemini_tools (twoServerScenario sA sB tA tB).all_mcp_tools =
      [mkFunctionDeclaration tA] := by
  rw [twoServerScenario_eq sA sB tA tB hname]
  refine ⟨?_, rfl, ?_⟩
  · simp [lookupStr]
  · simp [mcp_tools_to_gemini_tools, geminiDeclsLoop, hname]

/-- Witness for C2 at concrete inputs. -/
theorem c2_owner_last_declaration_first_witness :
    lookupStr (twoServerScenario "A" "B" ⟨"search", .jstr "da", .jnull⟩
        ⟨"search", .jstr "db", .jnull⟩).tool_to_server_map "search" = some "B" ∧
    (twoServerScenario "A" "B" ⟨"search", .jstr "da", .jnull⟩
        ⟨"search", .jstr "db", .jnull⟩).collisionWarnings = ["search"] ∧
    mcp_tools_to_gemini_tools (twoServerScenario "A" "B" ⟨"search", .jstr "da", .jnull⟩
        ⟨"search", .jstr "db", .jnull⟩).all_mcp_tools =
      [mkFunctionDeclaration ⟨"search", .jstr "da", .jnull⟩] :=
  c2_owner_last_declaration_first "A" "B"
    ⟨"search", .jstr "da", .jnull⟩ ⟨"search", .jstr "db", .jnull⟩ (by rfl)

/-- Counterexample to claim C2 as stated: with servers `A` then `B` both
exposing `"search"`, the owner is the last server `B`, but the function
declaration projected to the model carries the FIRST server's descriptor
(description `"from A"`), not the winning server's (`"from B"`), refuting the
claim that the deduplicated descriptor is the one from the last-processed
server. -/
theorem c2_counterexample_declaration_from_first_server :
    lookupStr (twoServerScenario "A" "B" ⟨"search", .jstr "from A", .jnull⟩
        ⟨"search", .jstr "from B", .jnull⟩).tool_to_server_map "search" = some "B" ∧
    (mcp_tools_to_gemini_tools (twoServerScenario "A" "B"
        ⟨"search", .jstr "from A", .jnull⟩
        ⟨"search", .jstr "from B", .jnull⟩).all_mcp_tools).map
      (fun d => d.description) = ["from A"] ∧
    ("from A" : String) ≠ "from B" :=
  ⟨rfl, rfl, by decide⟩

/-- Claim C10: in `connect_all_servers`, a config with no `transport` key is
treated exactly as the stdio default; the decision depends on the transport
value only through its lowercasing (so matching is case-insensitive); and an
entry is skipped as unsupported exactly when its transport value lowercases
to neither `"stdio"` nor `"sse"`. -/
theorem c10_transport_dispatch :
    (∀ hc hu : Bool, entryDecision ⟨none, hc, hu⟩ = entryDecision ⟨some "stdio", hc, hu⟩) ∧
    (∀ c c' : ServerConfigShape,
      pyLower (c.transport.getD "stdio") = pyLower (c'.transport.getD "stdio") →
      c.hasCommand = c'.hasCommand → c.hasUrl = c'.hasUrl →
      entryDecision c = entryDecision c') ∧
    (∀ (t : String) (hc hu : Bool),
      entryDecision ⟨some t, hc, hu⟩ = .skipUnsupported ↔
        (pyLower t ≠ "stdio" ∧ pyLower t ≠ "sse")) := by
  refine ⟨fun hc hu => rfl, ?_, ?_⟩
  · intro c c' h1 h2 h3
    unfold entryDecision
    rw [h1, h2, h3]
  · intro t hc hu
    unfold entryDecision
    dsimp only [Option.getD]
    by_cases hstdio : pyLower t = "stdio"
    · rw [if_pos hstdio]
      constructor
      · intro h
        cases hc <;> simp at h
      · intro h
        exact absurd hstdio h.1
    · rw [if_neg hstdio]
      by_cases hsse : pyLower t = "sse"
      · rw [if_pos hsse]
        constructor
        · intro h
          cases hu <;> simp at h
        · intro h
          exact absurd hsse h.2
      · rw [if_neg hsse]
        simp [hstdio, hsse]

/-- Witness for C10 at concrete inputs: `"SSE"` and `"sse"` select the same
transport, and `"websocket"` is skipped as unsupported. -/
theorem c10_transport_dispatch_witness :
    entryDecision ⟨some "SSE", true, true⟩ = entryDecision ⟨some "sse", true, true⟩ ∧
    (entryDecision ⟨some "websocket", true, true⟩ = .skipUnsupported ↔
      (pyLower "websocket" ≠ "stdio" ∧ pyLower "websocket" ≠ "sse")) :=
  ⟨c10_transport_dispatch.2.1 ⟨some "SSE", true, true⟩ ⟨some "sse", true, true⟩
      (by decide) rfl rfl,
   c10_transport_dispatch.2.2 "websocket" true true⟩

/-- Claim C1: for a model-requested tool call, each listed failure mode — no
owner for the tool name in the capability catalog, a protocol-level `isError`
result from the owning session, or an exception raised during dispatch —
makes the loop send an error-carrying function response back to the model and
continue with the next model response: the turn's result is exactly the
continuation's result with the error response recorded as sent, so no such
per-tool-call failure raises to the caller or aborts the turn. -/
theorem handleFuncCall_none {st : ClientState} {toolName : String}
    (ts : List ToolOutcome)
    (h : lookupStr st.tool_to_server_map toolName = none) :
    handleFuncCall st toolName ts = (errToolNotFound toolName, ts) := by
  unfold handleFuncCall
  rw [h]

theorem handleFuncCall_raises {st : ClientState} {toolName serverName : String}
    {msg : String} (ts2 : List ToolOutcome)
    (h : lookupStr st.tool_to_server_map toolName = some serverName)
    (hmem : serverName ∈ st.sessions) :
    handleFuncCall st toolName (.raises msg :: ts2) =
      (errToolException msg, ts2) := by
  unfold handleFuncCall
  rw [h]
  dsimp only
  rw [if_pos hmem]
  rfl

theorem handleFuncCall_result {st : ClientState} {toolName serverName : String}
    {res : MCPToolCallResult} (ts2 : List ToolOutcome)
    (h : lookupStr st.tool_to_server_map toolName = some serverName)
    (hmem : serverName ∈ st.sessions) :
    handleFuncCall st toolName (.result res :: ts2) =
      (extractResultContent toolName res, ts2) := by
  unfold handleFuncCall
  rw [h]
  dsimp only
  rw [if_pos hmem]
  rfl

theorem runLoop_funcCall (st : ClientState) (ft : List String)
    (toolName : String) (args : List (String × JVal)) (script : List GResponse)
    (ts : List ToolOutcome) :
    runLoop st ft (.withPart (.funcCallPart toolName args)) script ts =
      prependSent toolName (handleFuncCall st toolName ts).1
        (continueTurn st ft script (handleFuncCall st toolName ts).2) := by
  cases script <;> rfl

/-- Claim C1: for a model-requested tool call, each listed failure mode — no
owner for the tool name in the capability catalog, a protocol-level `isError`
result from the owning session, or an exception raised during dispatch —
makes the loop send an error-carrying function response back to the model and
continue with the next model response: the turn's result is exactly the
continuation's result with the error response recorded as sent, so no such
per-tool-call failure raises to the caller or aborts the turn. -/
theorem c1_tool_failures_feed_back :
    ∀ (st : ClientState) (ft : List String) (toolName : String)
      (args : List (String × JVal)) (script : List GResponse)
      (ts : List ToolOutcome),
      (lookupStr st.tool_to_server_map toolName = none →
        runLoop st ft (.withPart (.funcCallPart toolName args)) script ts =
          prependSent toolName (errToolNotFound toolName)
            (continueTurn st ft script ts)) ∧
      (∀ serverName msg ts2,
        lookupStr st.tool_to_server_map toolName = some serverName →
        serverName ∈ st.sessions →
        ts = .raises msg :: ts2 →
        runLoop st ft (.withPart (.funcCallPart toolName args)) script ts =
          prependSent toolName (errToolException msg)
            (continueTurn st ft script ts2)) ∧
      (∀ serverName res ts2,
        lookupStr st.tool_to_server_map toolName = some serverName →
        serverName ∈ st.sessions →
        ts = .result res :: ts2 →
        res.isError = true →
        runLoop st ft (.withPart (.funcCallPart toolName args)) script ts =
          prependSent toolName
            ("[Error executing tool \x27" ++ toolName ++ "\x27: " ++
              res.errorMsg.getD "Unknown error" ++ "]")
            (continueTurn st ft script ts2)) := by
  intro st ft toolName args script ts
  refine ⟨?_, ?_, ?_⟩
  · intro h
    rw [runLoop_funcCall, handleFuncCall_none ts h]
  · intro serverName msg ts2 hlk hmem hts
    subst hts
    rw [runLoop_funcCall, handleFuncCall_raises ts2 hlk hmem]
  · intro serverName res ts2 hlk hmem hts herr
    subst hts
    rw [runLoop_funcCall, handleFuncCall_result ts2 hlk hmem]
    have hex : extractResultContent toolName res =
        "[Error executing tool \x27" ++ toolName ++ "\x27: " ++
          res.errorMsg.getD "Unknown error" ++ "]" := by
      unfold extractResultContent
      rw [if_pos herr]
    rw [hex]

theorem runLoop_finalState : ∀ (script : List GResponse) (st : ClientState)
    (ft : List String) (r : GResponse) (ts : List ToolOutcome),
    (runLoop st ft r script ts).finalState = st := by
  intro script
  induction script with
  | nil =>
    intro st ft r ts
    cases r with
    | noCandidates => rfl
    | emptyContent => unfold runLoop; split <;> rfl
    | withPart p =>
      cases p with
      | textPart s => rfl
      | otherPart d => unfold runLoop; split <;> rfl
      | funcCallPart n args => rfl
  | cons rh rt ih =>
    intro st ft r ts
    cases r with
    | noCandidates => rfl
    | emptyContent => unfold runLoop; split <;> rfl
    | withPart p =>
      cases p with
      | textPart s => rfl
      | otherPart d => unfold runLoop; split <;> rfl
      | funcCallPart n args =>
        show (prependSent n (handleFuncCall st n ts).1
          (runLoop st ft rh rt (handleFuncCall st n ts).2)).finalState = st
        simp [prependSent, ih]

/-- Claim C8: `process_query` leaves the session registry, the
tool-to-server map, and the merged tool list unchanged — the client state
after any execution of a turn equals the state before it (a turn only reads
the connect-phase state). -/
theorem c8_turn_preserves_connect_state (st : ClientState) (hcs : Bool)
    (q : String) (ap : Option String) (fps : Option (List String)) (pil : Bool)
    (fs : String → FileInfo) (script : List GResponse) (ts : List ToolOutcome) :
    (process_query st hcs q ap fps pil fs script ts).finalState = st := by
  unfold process_query
  split
  · rfl
  · cases processAttachment (firstFilePath fps) pil fs with
    | abort e => rfl
    | proceed hi =>
      dsimp only
      cases script with
      | nil => simp [runLoop_finalState]
      | cons r rest => simp [runLoop_finalState]

/-- Claim C9: only the first element of `file_paths` is considered as an
attachment — the result of `process_query` on a list is identical to its
result on the singleton of the list's first element (every later path has no
effect on the request sent to the model or on the returned result). -/
theorem c9_only_first_attachment_path (st : ClientState) (hcs : Bool)
    (q : String) (ap : Option String) (p : String) (rest : List String)
    (pil : Bool) (fs : String → FileInfo) (script : List GResponse)
    (ts : List ToolOutcome) :
    process_query st hcs q ap (some (p :: rest)) pil fs script ts =
      process_query st hcs q ap (some [p]) pil fs script ts := rfl

theorem runLoop_noCandidates (st : ClientState) (ft : List String)
    (script : List GResponse) (ts : List ToolOutcome) :
    runLoop st ft .noCandidates script ts = ⟨joinedText ft, [], st⟩ := by
  cases script <;> rfl

theorem runLoop_emptyContent (st : ClientState) (ft : List String)
    (script : List GResponse) (ts : List ToolOutcome) :
    runLoop st ft .emptyContent script ts =
      if ft.isEmpty then ⟨errNoValidResponse, [], st⟩
      else ⟨joinedText ft, [], st⟩ := by
  cases script <;> rfl

theorem process_query_abort (st : ClientState) (q : String) (ap : Option String)
    (fps : Option (List String)) (pil : Bool) (fs : String → FileInfo)
    (script : List GResponse) (ts : List ToolOutcome) (e : String)
    (h : processAttachment (firstFilePath fps) pil fs = .abort e) :
    process_query st true q ap fps pil fs script ts = ⟨e, [], none, st⟩ := by
  unfold process_query
  rw [if_neg (by decide), h]

theorem process_query_proceed (st : ClientState) (q : String) (ap : Option String)
    (fps : Option (List String)) (pil : Bool) (fs : String → FileInfo)
    (r : GResponse) (rest : List GResponse) (ts : List ToolOutcome) (b : Bool)
    (h : processAttachment (firstFilePath fps) pil fs = .proceed b) :
    process_query st true q ap fps pil fs (r :: rest) ts =
      ⟨(runLoop st [] r rest ts).answer,
       (runLoop st [] r rest ts).sentFunctionResponses,
       some (fullQueryOf q ap, b),
       (runLoop st [] r rest ts).finalState⟩ := by
  unfold process_query
  rw [if_neg (by decide), h]

/-- Claim C3 (amended): only an exception raised during Pillow image
validation or while reading the file and building the image part aborts the
turn — immediately, with the corresponding descriptive error string, and
without contacting the model; a path that is not an existing file, or whose
MIME type is not an image type, is silently dropped (only logged) and the
turn proceeds without the attachment. -/
theorem c3_attachment_abort_behavior :
    ∀ (st : ClientState) (q : String) (ap : Option String) (p : String)
      (rest : List String) (fs : String → FileInfo) (script : List GResponse)
      (ts : List ToolOutcome),
      ((fs p).isFile = false →
        processAttachment (some p) true fs = .proceed false) ∧
      ((fs p).isFile = true → isImageMime (fs p).mimeType = false →
        processAttachment (some p) true fs = .proceed false) ∧
      (∀ e, (fs p).isFile = true → isImageMime (fs p).mimeType = true →
        (fs p).verifyStep = .raises e →
        process_query st true q ap (some (p :: rest)) true fs script ts =
          ⟨attachmentErrorMessage p e, [], none, st⟩) ∧
      (∀ e, (fs p).isFile = true → isImageMime (fs p).mimeType = true →
        (fs p).verifyStep = .ok → (fs p).partStep = .raises e →
        process_query st true q ap (some (p :: rest)) true fs script ts =
          ⟨attachmentErrorMessage p e, [], none, st⟩) := by
  intro st q ap p rest fs script ts
  refine ⟨?_, ?_, ?_, ?_⟩
  · intro hf
    unfold processAttachment
    simp [hf]
  · intro hf hm
    unfold processAttachment
    simp [hf, hm]
  · intro e hf hm hv
    have hatt : processAttachment (some p) true fs =
        .abort (attachmentErrorMessage p e) := by
      unfold processAttachment
      simp [hf, hm, hv]
    exact process_query_abort st q ap (some (p :: rest)) true fs script ts
      (attachmentErrorMessage p e) hatt
  · intro e hf hm hv hp
    have hatt : processAttachment (some p) true fs =
        .abort (attachmentErrorMessage p e) := by
      unfold processAttachment
      simp [hf, hm, hv, hp]
    exact process_query_abort st q ap (some (p :: rest)) true fs script ts
      (attachmentErrorMessage p e) hatt

/-- Witness for C3 at concrete inputs: a missing file proceeds without the
attachment, and an undecodable image aborts with the descriptive error
without contacting the model. -/
theorem c3_attachment_abort_behavior_witness :
    processAttachment (some "f.png") true fsNoFile = .proceed false ∧
    process_query emptyClientState true "q" none (some ["f.png"]) true
        (fun _ => ⟨true, some "image/png", .raises .unidentifiedImage, .ok⟩)
        [.withPart (.textPart "hello")] [] =
      ⟨attachmentErrorMessage "f.png" .unidentifiedImage, [], none,
        emptyClientState⟩ :=
  ⟨(c3_attachment_abort_behavior emptyClientState "q" none "f.png" [] fsNoFile
      [] []).1 (by rfl),
   (c3_attachment_abort_behavior emptyClientState "q" none "f.png" []
      (fun _ => ⟨true, some "image/png", .raises .unidentifiedImage, .ok⟩)
      [.withPart (.textPart "hello")] []).2.2.1 .unidentifiedImage
      (by rfl) (by rfl) (by rfl)⟩

/-- Counterexample to claim C3 as stated: with an attachment path whose file
does not exist, the turn is not aborted — the attachment is silently dropped
(source lines 436-439 only log), the model is contacted, and its answer is
returned. -/
theorem c3_counterexample_missing_file_not_aborted :
    (process_query emptyClientState true "q" none (some ["missing.png"]) true
        fsNoFile [.withPart (.textPart "hello")] []).answer = "hello" ∧
    (process_query emptyClientState true "q" none (some ["missing.png"]) true
        fsNoFile [.withPart (.textPart "hello")] []).initialSend =
      some ("q", false) :=
  ⟨rfl, rfl⟩

/-- Claim C4 (amended): the embedding of `process_query` is a total function
returning a string; when the first model response has no candidates the loop
breaks and the turn returns the accumulated text — the empty string when
none — rather than an explicit error; a candidate with no content parts
yields the explicit no-valid-response error exactly when no text has been
accumulated, and with accumulated text the loop terminates returning it. -/
theorem c4_response_failure_behavior :
    (∀ (st : ClientState) (q : String) (ap : Option String)
       (fps : Option (List String)) (pil : Bool) (fs : String → FileInfo)
       (rest : List GResponse) (ts : List ToolOutcome) (b : Bool),
      processAttachment (firstFilePath fps) pil fs = .proceed b →
      (process_query st true q ap fps pil fs (.noCandidates :: rest) ts).answer
          = "" ∧
      (process_query st true q ap fps pil fs (.emptyContent :: rest) ts).answer
          = errNoValidResponse) ∧
    (∀ (st : ClientState) (ft : List String) (rest : List GResponse)
       (ts : List ToolOutcome), ¬ ft.isEmpty = true →
      runLoop st ft .emptyContent rest ts = ⟨joinedText ft, [], st⟩ ∧
      runLoop st ft .noCandidates rest ts = ⟨joinedText ft, [], st⟩) := by
  constructor
  · intro st q ap fps pil fs rest ts b hatt
    constructor
    · rw [process_query_proceed st q ap fps pil fs .noCandidates rest ts b hatt]
      dsimp only
      rw [runLoop_noCandidates]
      rfl
    · rw [process_query_proceed st q ap fps pil fs .emptyContent rest ts b hatt]
      dsimp only
      rw [runLoop_emptyContent]
      rfl
  · intro st ft rest ts hft
    constructor
    · rw [runLoop_emptyContent, if_neg hft]
    · rw [runLoop_noCandidates]

/-- Witness for C4 at concrete inputs: an empty-content first response yields
the explicit no-valid-response error, and an empty-content response after
accumulated text returns the text. -/
theorem c4_response_failure_behavior_witness :
    (process_query emptyClientState true "q" none none true fsNoFile
        [.emptyContent] []).answer = errNoValidResponse ∧
    runLoop emptyClientState ["partial"] .emptyContent [] [] =
      ⟨joinedText ["partial"], [], emptyClientState⟩ :=
  ⟨(c4_response_failure_behavior.1 emptyClientState "q" none none true fsNoFile
      [] [] false (by rfl)).2,
   (c4_response_failure_behavior.2 emptyClientState ["partial"] [] []
      (by decide)).1⟩

/-- Counterexample to claim C4 as stated: when the model returns no
candidates on the first response and no text has been accumulated, the turn
returns the empty string (the loop merely breaks, source lines 509-511, and
line 680 joins an empty list), not an explicit "no valid response" error
string. -/
theorem c4_counterexample_no_candidates_returns_empty :
    (process_query emptyClientState true "q" none none true fsNoFile
        [.noCandidates] []).answer = "" ∧
    ("" : String) ≠ errNoValidResponse :=
  ⟨rfl, by decide⟩

/-- Witness for C1 at concrete inputs: an unknown tool, a raising tool, and
an `isError`-reporting tool each produce an error function response and the
loop continues. -/
theorem c1_tool_failures_feed_back_witness :
    runLoop ⟨["srv"], [], [("mytool", "srv")], []⟩ []
        (.withPart (.funcCallPart "ghost" [])) [] [] =
      prependSent "ghost" (errToolNotFound "ghost")
        (continueTurn ⟨["srv"], [], [("mytool", "srv")], []⟩ [] [] []) ∧
    runLoop ⟨["srv"], [], [("mytool", "srv")], []⟩ []
        (.withPart (.funcCallPart "mytool" [])) [] [.raises "boom"] =
      prependSent "mytool" (errToolException "boom")
        (continueTurn ⟨["srv"], [], [("mytool", "srv")], []⟩ [] [] []) ∧
    runLoop ⟨["srv"], [], [("mytool", "srv")], []⟩ []
        (.withPart (.funcCallPart "mytool" [])) []
        [.result ⟨true, some "bad", []⟩] =
      prependSent "mytool"
        ("[Error executing tool \x27mytool\x27: " ++
          (some "bad").getD "Unknown error" ++ "]")
        (continueTurn ⟨["srv"], [], [("mytool", "srv")], []⟩ [] [] []) :=
  ⟨(c1_tool_failures_feed_back ⟨["srv"], [], [("mytool", "srv")], []⟩ []
      "ghost" [] [] []).1 (by rfl),
   (c1_tool_failures_feed_back ⟨["srv"], [], [("mytool", "srv")], []⟩ []
      "mytool" [] [] [.raises "boom"]).2.1 "srv" "boom" [] (by rfl) (by decide)
      rfl,
   (c1_tool_failures_feed_back ⟨["srv"], [], [("mytool", "srv")], []⟩ []
      "mytool" [] [] [.result ⟨true, some "bad", []⟩]).2.2 "srv"
      ⟨true, some "bad", []⟩ [] (by rfl) (by decide) rfl (by rfl)⟩

/-- Witness for C5 at a concrete input: a non-dictionary root yields an
absent schema. -/
theorem c5_clean_root_type_witness :
    clean (JVal.jstr "notadict") = none :=
  (c5_clean_root_type.1 (JVal.jstr "notadict")).mpr (fun fs h => by cases h)
